import Mathlib

/-!
Shallow embedding of the Photoshop CSV frame-importer scripts
(`src/photoshop-csv-importer.jsx`, `src/unnamed/part_000`,
`src/unnamed/part_002`). Pure logic (CSV parsing and validation, path
resolution, the image cover-fit transform, the greedy text-shrink loop,
the layer-tree lookup and the batch orchestration loop) is translated
into executable Lean definitions; host-application effects (file
existence, opening an image, measured text width) are injected as
explicit oracles.
-/

namespace PSImporter

/-! ## String utilities: JavaScript-style `split` -/

/-- JavaScript `String.prototype.split` on a single separator character,
over a list of characters.  Splitting always yields at least one piece:
the empty string splits to `[[]]`. -/
def splitOnChar (sep : Char) (cs : List Char) : List (List Char) :=
  match cs with
  | [] => [[]]
  | c :: rest =>
    match splitOnChar sep rest with
    | [] => [[]]
    | h :: t => if c = sep then [] :: h :: t else (c :: h) :: t

/-- JavaScript `s.split(sep)` for strings. -/
def jsSplit (sep : Char) (s : String) : List String :=
  (splitOnChar sep s.toList).map List.asString

/-- JavaScript `String.prototype.trim` over a character list: strip
whitespace from both ends. -/
def trimChars (cs : List Char) : List Char :=
  ((cs.dropWhile Char.isWhitespace).reverse.dropWhile
    Char.isWhitespace).reverse

/-- JavaScript `s.trim()`. -/
def jsTrim (s : String) : String := (trimChars s.toList).asString

/-- JavaScript `s.toLowerCase()` (ASCII case fold suffices for the
extension strings compared here). -/
def jsToLower (s : String) : String :=
  (s.toList.map Char.toLower).asString

/-! ## JavaScript `parseInt` success predicate

The validator only tests `isNaN(parseInt(x))`, so we embed exactly the
success condition of `parseInt` with an undefined radix: skip
whitespace, an optional sign, an optional `0x`/`0X` hex marker, and
succeed iff at least one digit (hex digit after the marker) follows. -/

/-- ASCII hexadecimal digit test. -/
def isHexDigitChar (c : Char) : Bool :=
  c.isDigit || (('a' ≤ c && c ≤ 'f') || ('A' ≤ c && c ≤ 'F'))

/-- `true` iff JavaScript `parseInt(s)` (radix undefined) returns a
number rather than `NaN`. -/
def jsParseIntOk (s : String) : Bool :=
  let cs := trimChars s.toList
  let cs :=
    match cs with
    | '+' :: rest => rest
    | '-' :: rest => rest
    | _ => cs
  match cs with
  | '0' :: 'x' :: rest => isHexDigitChar (rest.headD ' ')
  | '0' :: 'X' :: rest => isHexDigitChar (rest.headD ' ')
  | c :: _ => c.isDigit
  | [] => false

/-! ## PathUtils (`src/unnamed/part_002`, lines 172–267)

`Folder.fs` (the host platform string, `"Windows"` or `"Macintosh"`) and
`Folder(basePath).parent` (the parent directory of a path, a host
filesystem query) are passed in as explicit parameters. -/

/-- The platform separator chosen by `PathUtils.normalize`. -/
def sepChar (fs : String) : Char :=
  if fs == "Windows" then '\\' else '/'

/-- The regex replace `/[\\/]+/g → sep`: a maximal run of slashes
(either style) collapses to a single separator.  `prevSlash` records
whether the previous character belonged to a slash run. -/
def collapseAux (sep : Char) (prevSlash : Bool) : List Char → List Char
  | [] => []
  | c :: rest =>
    if c = '/' || c = '\\' then
      if prevSlash then collapseAux sep true rest
      else sep :: collapseAux sep true rest
    else c :: collapseAux sep false rest

/-- `path.replace(/[\\/]+/g, sep)` over a character list. -/
def collapseSlashes (sep : Char) (cs : List Char) : List Char :=
  collapseAux sep false cs

/-- `PathUtils.normalize`: collapse slash runs to the platform
separator, then trim surrounding whitespace.  Empty input returns "". -/
def normalize (fs path : String) : String :=
  if path = "" then ""
  else jsTrim ((collapseSlashes (sepChar fs) path.toList).asString)

/-- `PathUtils.isAbsolutePath`: on Windows a drive-letter root
(`X:\`) or a UNC lead (`\\`); elsewhere a leading `/`. -/
def isAbsolutePath (fs path : String) : Bool :=
  if path = "" then false
  else if fs == "Windows" then
    match path.toList with
    | a :: ':' :: '\\' :: _ => a.isAlpha
    | '\\' :: '\\' :: _ => true
    | _ => false
  else
    match path.toList with
    | '/' :: _ => true
    | _ => false

/-- `PathUtils.resolveRelativePath` exactly as written in the source.
JavaScript operator precedence groups the unparenthesised conditional
as `((baseDir + Folder.fs) === "Windows") ? "\\" : ("/" + normalize)`,
so for a relative path the base directory is dropped from the result.
`parentDir` stands for `Folder(basePath).parent` coerced to a string. -/
def resolveRelativePath (fs : String) (parentDir : String → String)
    (basePath relativePath : String) : String :=
  if relativePath = "" then ""
  else if isAbsolutePath fs relativePath then normalize fs relativePath
  else
    let baseDir := parentDir basePath
    if baseDir ++ fs == "Windows" then "\\"
    else "/" ++ normalize fs relativePath

/-- Modelled from the spec: `resolveRelative(basePath, path)` returns
`path` normalized when absolute, and otherwise
`parentDirectory(basePath) + separator + normalize(path)`.  This is the
behaviour the surrounding documentation of `resolveRelativePath`
describes; it is compared against the source translation above. -/
def resolveRelativeSpec (fs : String) (parentDir : String → String)
    (basePath relativePath : String) : String :=
  if isAbsolutePath fs relativePath then normalize fs relativePath
  else
    parentDir basePath ++ (sepChar fs).toString ++ normalize fs relativePath

/-- `PathUtils.validatePath`: rejects empty paths, paths over 255
characters, paths with platform-illegal characters, and (when an
allow-list is supplied) disallowed extensions.  Returns the error
message, or `none` when valid. -/
def validatePath (fs path : String) (allowedExtensions : List String) :
    Option String :=
  if path = "" then some "Empty file path"
  else if path.length > 255 then
    some "File path exceeds maximum length of 255 characters"
  else if path.toList.any (fun c =>
      if fs == "Windows" then
        c = '<' || c = '>' || c = ':' || c = '\"' || c = '|' ||
          c = '?' || c = '*' || c.val ≤ 0x1F
      else
        c.val = 0 || c = '/') then
    some "File path contains invalid characters"
  else if allowedExtensions ≠ [] then
    let ext := jsToLower ((jsSplit '.' path).getLastD "")
    if allowedExtensions.contains ext then none
    else some "Invalid file extension"
  else none

/-! ## CSV reading and validation
(`readCSV` / `validateCSVData`, `src/unnamed/part_002` lines 274–479;
identical logic in `CSVManager.validate` / `validateRow` of
`src/photoshop-csv-importer.jsx`).  The file-existence probe
(`new File(p).exists`) is injected as `fileExists`. -/

/-- `LAYOUT_CONFIG.CSV.EXPECTED_COLUMNS`. -/
def EXPECTED_COLUMNS : Nat := 6

/-- `LAYOUT_CONFIG.CSV.HEADERS`. -/
def HEADERS : List String :=
  ["Name", "Profession", "Overdose", "Year of Death", "Age", "Image Path"]

/-- `LAYOUT_CONFIG.CSV.REQUIRED_FIELDS`. -/
def REQUIRED_FIELDS : List Nat := [0, 1, 2, 3, 4]

/-- The parsing step of `readCSV`: split the file content on newlines,
split each line on commas, trim every field. -/
def parseCSV (content : String) : List (List String) :=
  (jsSplit '\n' content).map (fun line => (jsSplit ',' line).map jsTrim)

/-- The distinct error returns of `validateCSVData`, carrying the data
interpolated into the source's message strings (`rowNum` is the 1-based
display index `rowIndex + 1`). -/
inductive CSVError where
  | emptyCSV : CSVError
  | missingDataRows : CSVError
  | headerColumnCount : CSVError
  | headerName (expected actual : String) : CSVError
  | rowColumnCount (rowNum actual : Nat) : CSVError
  | missingRequired (fieldName : String) (rowNum : Nat) : CSVError
  | notANumber (fieldName : String) (rowNum : Nat) : CSVError
  | imageNotFound (rowNum : Nat) : CSVError
deriving DecidableEq, Repr

/-- A row is skipped when it is a single empty-after-trim field. -/
def isBlankRow (row : List String) : Bool :=
  row.length == 1 && (jsTrim (row.headD "") == "")

/-- The per-data-row checks of `validateCSVData` (the body of its row
loop; also `CSVManager.validateRow`).  `rowIndex` is the 0-based index
into the parsed data (so messages show `rowIndex + 1`). -/
def validateRow (fileExists : String → Bool) (row : List String)
    (rowIndex : Nat) : Option CSVError :=
  if isBlankRow row then none
  else if row.length ≠ EXPECTED_COLUMNS then
    some (.rowColumnCount (rowIndex + 1) row.length)
  else
    match REQUIRED_FIELDS.find? (fun c => jsTrim (row.getD c "") == "") with
    | some c => some (.missingRequired (HEADERS.getD c "") (rowIndex + 1))
    | none =>
      if jsParseIntOk (row.getD 3 "") = false then
        some (.notANumber "Year of Death" (rowIndex + 1))
      else if jsParseIntOk (row.getD 4 "") = false then
        some (.notANumber "Age" (rowIndex + 1))
      else if jsTrim (row.getD 5 "") ≠ "" ∧
          fileExists (jsTrim (row.getD 5 "")) = false then
        some (.imageNotFound (rowIndex + 1))
      else none

/-- First positional header-name mismatch, comparing each header
(trimmed) against the expected name. -/
def headerMismatch : List String → List String → Option CSVError
  | [], _ => none
  | e :: es, a :: rest =>
    if jsTrim a ≠ e then some (.headerName e (jsTrim a))
    else headerMismatch es rest
  | e :: _, [] => some (.headerName e "")

/-- The data-row loop of `validateCSVData`, short-circuiting on the
first error. -/
def validateRows (fileExists : String → Bool) :
    List (List String) → Nat → Option CSVError
  | [], _ => none
  | row :: rest, idx =>
    match validateRow fileExists row idx with
    | some e => some e
    | none => validateRows fileExists rest (idx + 1)

/-- `validateCSVData` in full: empty check, minimum-rows check, header
column count, header names, then every data row in order. -/
def validateCSVData (fileExists : String → Bool)
    (csvData : List (List String)) : Option CSVError :=
  if csvData.length = 0 then some .emptyCSV
  else if csvData.length < 2 then some .missingDataRows
  else
    let headers := csvData.headD []
    if headers.length ≠ EXPECTED_COLUMNS then some .headerColumnCount
    else
      match headerMismatch HEADERS headers with
      | some e => some e
      | none => validateRows fileExists (csvData.drop 1) 1

/-! ## Image fitting (`processImage`, `src/unnamed/part_002` lines
486–557; `ImageManager.fitImageToFrame` in the jsx).  Layer bounds are
`[left, top, right, bottom]` rectangles over ℚ. -/

/-- `LAYOUT_CONFIG.PATHS.ALLOWED_IMAGE_EXTENSIONS`. -/
def ALLOWED_IMAGE_EXTENSIONS : List String :=
  ["jpg", "jpeg", "png", "tif", "tiff", "psd"]

/-- A layer's bounding box, the host's `layer.bounds` quadruple. -/
structure Bounds where
  left : ℚ
  top : ℚ
  right : ℚ
  bottom : ℚ
deriving DecidableEq, Repr

/-- `bounds[2] - bounds[0]`. -/
def Bounds.width (b : Bounds) : ℚ := b.right - b.left

/-- `bounds[3] - bounds[1]`. -/
def Bounds.height (b : Bounds) : ℚ := b.bottom - b.top

/-- `(bounds[0] + bounds[2]) / 2`. -/
def Bounds.centerX (b : Bounds) : ℚ := (b.left + b.right) / 2

/-- `(bounds[1] + bounds[3]) / 2`. -/
def Bounds.centerY (b : Bounds) : ℚ := (b.top + b.bottom) / 2

/-- `layer.resize(scale*100, scale*100, AnchorPosition.MIDDLECENTER)`:
both extents scale uniformly about the layer's own center. -/
def Bounds.resizeCentered (b : Bounds) (scale : ℚ) : Bounds :=
  { left := b.centerX - scale * b.width / 2
    top := b.centerY - scale * b.height / 2
    right := b.centerX + scale * b.width / 2
    bottom := b.centerY + scale * b.height / 2 }

/-- `layer.translate(dx, dy)`. -/
def Bounds.translate (b : Bounds) (dx dy : ℚ) : Bounds :=
  { left := b.left + dx, top := b.top + dy
    right := b.right + dx, bottom := b.bottom + dy }

/-- The fit-and-center transform applied to the pasted image layer:
`scaleFactor = max(frameWidth/imageWidth, frameHeight/imageHeight)`,
uniform resize anchored middle-center, then translate the scaled
center onto the frame center.  Returns the scale factor and the final
bounds. -/
def fitImageToFrame (img frame : Bounds) : ℚ × Bounds :=
  let widthRatio := frame.width / img.width
  let heightRatio := frame.height / img.height
  let scaleFactor := max widthRatio heightRatio
  let scaled := img.resizeCentered scaleFactor
  let dx := frame.centerX - scaled.centerX
  let dy := frame.centerY - scaled.centerY
  (scaleFactor, scaled.translate dx dy)

/-- Host-side effects that `processImage` performs, injected as
oracles: the platform string, the parent-directory query, the
file-existence probe, and `app.open` + select-all + copy + paste
(which either throws or yields the pasted layer's bounds). -/
structure ImgEnv where
  fs : String
  parentDir : String → String
  docPath : String
  fileExists : String → Bool
  openImage : String → Option Bounds

/-- The distinct exits of `processImage`: the two early alert-returns,
the catch-block alert, and successful placement. -/
inductive ImgOutcome where
  | invalidPath (err : String) : ImgOutcome
  | fileNotFound (path : String) : ImgOutcome
  | processingError (path : String) : ImgOutcome
  | placed (scaleFactor : ℚ) (finalBounds : Bounds) : ImgOutcome
deriving DecidableEq, Repr

/-- `processImage(imagePath, frameName)`: validate the path against
the allowed image extensions, resolve it against the active document
path, probe existence, open/copy/paste, then fit to the frame.  The
translation is verbatim: there is no check on the pasted image's
extent before the ratio computation. -/
def processImage (env : ImgEnv) (imagePath : String) (frame : Bounds) :
    ImgOutcome :=
  match validatePath env.fs imagePath ALLOWED_IMAGE_EXTENSIONS with
  | some e => .invalidPath e
  | none =>
    let resolvedPath :=
      resolveRelativePath env.fs env.parentDir env.docPath imagePath
    if env.fileExists resolvedPath = false then .fileNotFound resolvedPath
    else
      match env.openImage resolvedPath with
      | none => .processingError resolvedPath
      | some imgBounds =>
        let r := fitImageToFrame imgBounds frame
        .placed r.1 r.2

/-! ## Text fitting (`placeContentInTextLayer` size-adjust loop,
`src/unnamed/part_002` lines 606–617; `TextManager.adjustTextSize` in
the jsx).  The host's re-queried measured width (`bounds[2] -
bounds[0]` after each size change) is injected as a function `widthAt`
of the current font size. -/

/-- `LAYOUT_CONFIG.TEXT.MAX_WIDTH`. -/
def MAX_WIDTH : ℚ := 620

/-- `LAYOUT_CONFIG.TEXT.INITIAL_SIZE`. -/
def INITIAL_SIZE : ℚ := 45

/-- `LAYOUT_CONFIG.TEXT.MIN_SIZE`. -/
def MIN_SIZE : ℚ := 1

/-- The `while (getTextWidth() > MAX_WIDTH && textItem.size > MIN_SIZE)
textItem.size -= 0.5` loop, as a function of the current size. -/
def shrinkLoop (widthAt : ℚ → ℚ) (maxWidth minSize size : ℚ) : ℚ :=
  if h : maxWidth < widthAt size ∧ minSize < size then
    shrinkLoop widthAt maxWidth minSize (size - 1/2)
  else size
termination_by (⌈2 * (size - minSize)⌉).toNat
decreasing_by
  have h2 : (0 : ℚ) < 2 * (size - minSize) := by linarith [h.2]
  have hc : (0 : ℤ) < ⌈(2 : ℚ) * (size - minSize)⌉ := Int.ceil_pos.mpr h2
  have he : (2 : ℚ) * (size - 1/2 - minSize) = 2 * (size - minSize) - 1 := by
    ring
  rw [he, Int.ceil_sub_one]
  omega

/-- `TextManager.adjustTextSize`: the first statement overwrites the
layer's current font size with `INITIAL_SIZE`, so the incoming size is
discarded before the shrink loop runs. -/
def adjustTextSize (widthAt : ℚ → ℚ) (_currentSize : ℚ) : ℚ :=
  shrinkLoop widthAt MAX_WIDTH MIN_SIZE INITIAL_SIZE

/-! ## Layer-tree lookup (`placeContentInTextLayer` subgroup descent,
`src/unnamed/part_000` lines 98–107, `src/unnamed/part_002` lines
583–591; `DocumentManager.getLayerFromGroup` in the jsx). -/

/-- The kinds of leaf layer the lookup distinguishes
(`LayerKind.TEXT` versus everything else). -/
inductive PSLayerKind where
  | text : PSLayerKind
  | other : PSLayerKind
deriving DecidableEq, Repr

/-- A leaf layer (`artLayers` entry). -/
structure ArtLayer where
  name : String
  kind : PSLayerKind
deriving DecidableEq, Repr

/-- A group (`layerSets` entry): nested groups plus leaf layers. -/
structure LayerSet where
  name : String
  subSets : List LayerSet
  leaves : List ArtLayer

/-- The subgroup-descent step: when a subgroup name is supplied, scan
the group's immediate child groups for the first exact name match and
descend into it; when no child matches (or no name was supplied), the
outer group is kept. -/
def descendSubGroup (g : LayerSet) (subGroupName : Option String) :
    LayerSet :=
  match subGroupName with
  | none => g
  | some s =>
    match g.subSets.find? (fun sub => sub.name == s) with
    | some sub => sub
    | none => g

/-- The leaf lookup inside the resolved group: first leaf with the
requested name and text kind. -/
def findTextLayer (g : LayerSet) (layerName : String) : Option ArtLayer :=
  g.leaves.find? (fun l => l.name == layerName && l.kind == PSLayerKind.text)

/-- A concrete group whose only child group is named `details`. -/
def sampleGroup : LayerSet :=
  { name := "profile-1"
    subSets := [{ name := "details", subSets := [], leaves := [] }]
    leaves := [{ name := "profile-age", kind := .text }] }

/-! ## Batch orchestration (`main`, `src/unnamed/part_002` lines
654–820; `App.main` in the jsx).  Host document operations are
abstracted to a trace: instance creation (`saveCopyAsNewFile`) and
per-slot text writes.  `slotOk i s` injects whether the slot lookup
for slot `s` of the record at CSV row `i` succeeds in the document. -/

/-- `LAYOUT_CONFIG.MAX_PROFILES`. -/
def MAX_PROFILES : Nat := 3

/-- One successful text-slot write: which CSV row it came from, which
of the five per-record slots (0 = name … 4 = age), and the template
instance it was written into. -/
structure SlotWrite where
  rowIndex : Nat
  slot : Nat
  instanceName : String
deriving DecidableEq, Repr

/-- The orchestrator's document-mutation state: records processed,
template instances created (in order), the active working document,
and the slot writes performed (in order). -/
structure RunState where
  processedCount : Nat
  instances : List String
  activeDoc : Option String
  writes : List SlotWrite
deriving DecidableEq, Repr

/-- State before any processing. -/
def initialRunState : RunState :=
  { processedCount := 0, instances := [], activeDoc := none, writes := [] }

/-- The slot writes produced by the five `placeContentInTextLayer`
calls for one record (name, profession, cause, year, age); each
succeeds or fails independently and a failure writes nothing. -/
def recordWrites (slotOk : Nat → Nat → Bool) (i : Nat) (inst : String) :
    List SlotWrite :=
  ([0, 1, 2, 3, 4].filter (fun s => slotOk i s)).map
    (fun s => { rowIndex := i, slot := s, instanceName := inst })

/-- Appends one record's slot writes to the run state. -/
def processRecord (slotOk : Nat → Nat → Bool) (i : Nat) (inst : String)
    (st : RunState) : RunState :=
  { st with writes := st.writes ++ recordWrites slotOk i inst }

/-- The body of one non-blank loop iteration: on the first processed
record create the working document (`saveCopyAsNewFile(sourceDoc,
processedCount + 1 + ".psd")`) and make it active, then write the
record's slots into the active document and count it as processed. -/
def stepRecord (slotOk : Nat → Nat → Bool) (i : Nat) (st : RunState) :
    RunState :=
  let st1 :=
    if st.processedCount = 0 then
      let nm := toString (st.processedCount + 1) ++ ".psd"
      { st with instances := st.instances ++ [nm], activeDoc := some nm }
    else st
  let st2 := processRecord slotOk i (st1.activeDoc.getD "") st1
  { st2 with processedCount := st2.processedCount + 1 }

/-- The entry loop of `main`: iterate CSV rows from index 1 while
capacity (`MAX_PROFILES`) remains, skip blank rows, and run
`stepRecord` on each non-blank row. -/
def batchGo (slotOk : Nat → Nat → Bool) :
    List (List String) → Nat → RunState → RunState
  | [], _, st => st
  | row :: rest, i, st =>
    if st.processedCount < MAX_PROFILES then
      if isBlankRow row then batchGo slotOk rest (i + 1) st
      else batchGo slotOk rest (i + 1) (stepRecord slotOk i st)
    else st

/-- The terminal outcomes of `main`. -/
inductive RunResult where
  | readFailed : RunResult
  | validationFailed (e : CSVError) : RunResult
  | completed (processedCount : Nat) : RunResult
deriving DecidableEq, Repr

/-- `main` after the CSV file has been chosen: `csvContent = none`
models `readCSV` returning null.  Validation runs before the entry
loop; a validation error returns before any document operation. -/
def runMain (fileExists : String → Bool) (slotOk : Nat → Nat → Bool)
    (csvContent : Option String) : RunResult × RunState :=
  match csvContent with
  | none => (.readFailed, initialRunState)
  | some content =>
    if (parseCSV content).length = 0 then (.readFailed, initialRunState)
    else
      match validateCSVData fileExists (parseCSV content) with
      | some e => (.validationFailed e, initialRunState)
      | none =>
        (.completed
          (batchGo slotOk ((parseCSV content).drop 1) 1
            initialRunState).processedCount,
          batchGo slotOk ((parseCSV content).drop 1) 1 initialRunState)

/-- 0-based CSV indices of the non-blank rows of a row list whose
first element sits at CSV index `i`. -/
def nonBlankIndices : List (List String) → Nat → List Nat
  | [], _ => []
  | r :: rest, i =>
    if isBlankRow r then nonBlankIndices rest (i + 1)
    else i :: nonBlankIndices rest (i + 1)

/-! ## Concrete inputs used by witnesses and counterexamples -/

/-- A host environment in which every file exists and opening any
image yields a pasted layer of zero width (bounds `[0, 0, 0, 50]`). -/
def zeroExtentEnv : ImgEnv :=
  { fs := "Macintosh"
    parentDir := fun _ => "/work"
    docPath := "/work/doc.psd"
    fileExists := fun _ => true
    openImage := fun _ => some ⟨0, 0, 0, 50⟩ }

/-- A CSV text with the exact expected header and four valid data
rows (no image paths). -/
def csv4 : String :=
  "Name,Profession,Overdose,Year of Death,Age,Image Path\n" ++
  "A,B,C,1990,27,\nD,E,F,1991,28,\nG,H,I,1992,29,\nJ,K,L,1993,30,"

/-! ## Basic lemmas -/

theorem splitOnChar_ne_nil (sep : Char) (cs : List Char) :
    splitOnChar sep cs ≠ [] := by
  cases cs with
  | nil => simp [splitOnChar]
  | cons c rest =>
    simp only [splitOnChar]
    cases splitOnChar sep rest with
    | nil => simp
    | cons h t =>
      by_cases hc : c = sep <;> simp [hc]

theorem jsSplit_ne_nil (sep : Char) (s : String) : jsSplit sep s ≠ [] := by
  simp [jsSplit, splitOnChar_ne_nil]

/-! ## Geometry helper lemmas -/

theorem resizeCentered_width (b : Bounds) (s : ℚ) :
    (b.resizeCentered s).width = s * b.width := by
  simp only [Bounds.resizeCentered, Bounds.width, Bounds.centerX]
  ring

theorem resizeCentered_height (b : Bounds) (s : ℚ) :
    (b.resizeCentered s).height = s * b.height := by
  simp only [Bounds.resizeCentered, Bounds.height, Bounds.centerY]
  ring

theorem translate_width (b : Bounds) (dx dy : ℚ) :
    (b.translate dx dy).width = b.width := by
  simp only [Bounds.translate, Bounds.width]
  ring

theorem translate_height (b : Bounds) (dx dy : ℚ) :
    (b.translate dx dy).height = b.height := by
  simp only [Bounds.translate, Bounds.height]
  ring

theorem translate_centerX (b : Bounds) (dx dy : ℚ) :
    (b.translate dx dy).centerX = b.centerX + dx := by
  simp only [Bounds.translate, Bounds.centerX]
  ring

theorem translate_centerY (b : Bounds) (dx dy : ℚ) :
    (b.translate dx dy).centerY = b.centerY + dy := by
  simp only [Bounds.translate, Bounds.centerY]
  ring

/-! ## Claim theorems -/

/-- C1: the spec states that `resolveRelative(basePath, path)` returns
`parentDirectory(basePath) + separator + normalize(path)` for a
non-absolute `path`.  The source's unparenthesised conditional
expression instead drops the base directory: at base path
`/data/people.csv` (parent directory `/data`) and relative path
`img.png` on a non-Windows platform the code produces `/img.png`
while the documented behaviour is `/data/img.png`. -/
theorem C1_resolveRelative_drops_base :
    resolveRelativePath "Macintosh" (fun _ => "/data") "/data/people.csv"
        "img.png" = "/img.png" ∧
    resolveRelativeSpec "Macintosh" (fun _ => "/data") "/data/people.csv"
        "img.png" = "/data/img.png" ∧
    resolveRelativePath "Macintosh" (fun _ => "/data") "/data/people.csv"
        "img.png" ≠
      resolveRelativeSpec "Macintosh" (fun _ => "/data") "/data/people.csv"
        "img.png" := by
  refine ⟨by decide, by decide, by decide⟩

/-- C2: cover-fit.  For any frame and any pasted image of positive
width and height, the applied scale factor is
`max(frameWidth/imageWidth, frameHeight/imageHeight)`; the scaled
image's extent covers the frame on both axes, and after the final
translation the image's center coincides with the frame's center. -/
theorem C2_cover_fit (img frame : Bounds)
    (hw : 0 < img.width) (hh : 0 < img.height) :
    (fitImageToFrame img frame).1 =
      max (frame.width / img.width) (frame.height / img.height) ∧
    frame.width ≤ (fitImageToFrame img frame).2.width ∧
    frame.height ≤ (fitImageToFrame img frame).2.height ∧
    (fitImageToFrame img frame).2.centerX = frame.centerX ∧
    (fitImageToFrame img frame).2.centerY = frame.centerY := by
  have hs : (fitImageToFrame img frame).1 =
      max (frame.width / img.width) (frame.height / img.height) := rfl
  have h2 : (fitImageToFrame img frame).2 =
      (img.resizeCentered (fitImageToFrame img frame).1).translate
        (frame.centerX -
          (img.resizeCentered (fitImageToFrame img frame).1).centerX)
        (frame.centerY -
          (img.resizeCentered (fitImageToFrame img frame).1).centerY) := rfl
  refine ⟨hs, ?_, ?_, ?_, ?_⟩
  · rw [h2, translate_width, resizeCentered_width, hs]
    have hle : frame.width / img.width ≤
        max (frame.width / img.width) (frame.height / img.height) :=
      le_max_left _ _
    calc frame.width = frame.width / img.width * img.width := by
          field_simp
      _ ≤ max (frame.width / img.width) (frame.height / img.height) *
            img.width := by
          exact mul_le_mul_of_nonneg_right hle (le_of_lt hw)
  · rw [h2, translate_height, resizeCentered_height, hs]
    have hle : frame.height / img.height ≤
        max (frame.width / img.width) (frame.height / img.height) :=
      le_max_right _ _
    calc frame.height = frame.height / img.height * img.height := by
          field_simp
      _ ≤ max (frame.width / img.width) (frame.height / img.height) *
            img.height := by
          exact mul_le_mul_of_nonneg_right hle (le_of_lt hh)
  · rw [h2, translate_centerX]
    ring
  · rw [h2, translate_centerY]
    ring

/-- Witness for C2 at the spec's example: a 100×50 frame and a 50×50
image give scale factor 2, a covering extent, and a centered result. -/
theorem C2_cover_fit_witness :
    (fitImageToFrame ⟨0, 0, 50, 50⟩ ⟨0, 0, 100, 50⟩).1 = 2 ∧
    (Bounds.mk 0 0 100 50).width ≤
      (fitImageToFrame ⟨0, 0, 50, 50⟩ ⟨0, 0, 100, 50⟩).2.width ∧
    (fitImageToFrame ⟨0, 0, 50, 50⟩ ⟨0, 0, 100, 50⟩).2.centerX =
      (Bounds.mk 0 0 100 50).centerX ∧
    (fitImageToFrame ⟨0, 0, 50, 50⟩ ⟨0, 0, 100, 50⟩).2.centerY =
      (Bounds.mk 0 0 100 50).centerY := by
  have h := C2_cover_fit ⟨0, 0, 50, 50⟩ ⟨0, 0, 100, 50⟩
    (by norm_num [Bounds.width]) (by norm_num [Bounds.height])
  refine ⟨?_, h.2.1, h.2.2.2.1, h.2.2.2.2⟩
  rw [h.1]
  norm_num [Bounds.width, Bounds.height]

theorem shrinkLoop_exit (widthAt : ℚ → ℚ) (maxWidth minSize size : ℚ) :
    widthAt (shrinkLoop widthAt maxWidth minSize size) ≤ maxWidth ∨
      shrinkLoop widthAt maxWidth minSize size ≤ minSize := by
  induction size using shrinkLoop.induct widthAt maxWidth minSize with
  | case1 size h ih =>
    rw [shrinkLoop, dif_pos h]
    exact ih
  | case2 size h =>
    rw [shrinkLoop, dif_neg h]
    rcases not_and_or.mp h with h1 | h2
    · exact Or.inl (le_of_not_lt h1)
    · exact Or.inr (le_of_not_lt h2)

theorem shrinkLoop_steps (widthAt : ℚ → ℚ) (maxWidth minSize size : ℚ) :
    ∃ k : ℕ, shrinkLoop widthAt maxWidth minSize size =
        size - (k : ℚ) * (1/2) ∧
      ∀ j : ℕ, j < k →
        maxWidth < widthAt (size - (j : ℚ) * (1/2)) ∧
          minSize < size - (j : ℚ) * (1/2) := by
  induction size using shrinkLoop.induct widthAt maxWidth minSize with
  | case1 size h ih =>
    obtain ⟨k, hk, hj⟩ := ih
    refine ⟨k + 1, ?_, ?_⟩
    · rw [shrinkLoop, dif_pos h, hk]
      push_cast
      ring
    · intro j hjk
      cases j with
      | zero => simpa using h
      | succ j' =>
        have he : size - ((j' + 1 : ℕ) : ℚ) * (1/2) =
            size - 1/2 - (j' : ℚ) * (1/2) := by
          push_cast
          ring
        rw [he]
        exact hj j' (by omega)
  | case2 size h =>
    refine ⟨0, by rw [shrinkLoop, dif_neg h]; simp, ?_⟩
    intro j hj
    omega

/-- C7: termination and shape of the text-shrink loop.  Starting from
the initial size 45, the final size is `45 - k·0.5` for some number of
iterations `k`; every iterated size strictly exceeded both the width
cap (measured width above 620) and the minimum size 1, and on exit
either the measured width is at most 620 or the size is at most 1. -/
theorem C7_fitWidth_terminates (widthAt : ℚ → ℚ) (currentSize : ℚ) :
    (∃ k : ℕ, adjustTextSize widthAt currentSize =
        INITIAL_SIZE - (k : ℚ) * (1/2) ∧
      ∀ j : ℕ, j < k →
        MAX_WIDTH < widthAt (INITIAL_SIZE - (j : ℚ) * (1/2)) ∧
          MIN_SIZE < INITIAL_SIZE - (j : ℚ) * (1/2)) ∧
    (widthAt (adjustTextSize widthAt currentSize) ≤ MAX_WIDTH ∨
      adjustTextSize widthAt currentSize ≤ MIN_SIZE) :=
  ⟨shrinkLoop_steps widthAt MAX_WIDTH MIN_SIZE INITIAL_SIZE,
    shrinkLoop_exit widthAt MAX_WIDTH MIN_SIZE INITIAL_SIZE⟩

/-- C8: the shrink procedure resets the font size to `INITIAL_SIZE`
before looping, and the measured width is injected as a function of
the current size alone, so running it twice gives the same final size
as running it once. -/
theorem C8_fitWidth_idempotent (widthAt : ℚ → ℚ) (size : ℚ) :
    adjustTextSize widthAt (adjustTextSize widthAt size) =
      adjustTextSize widthAt size := rfl

/-- C9: when no immediate child group of `g` is named exactly `s`,
the subgroup descent returns the outer group `g` unchanged rather
than failing, so the subsequent leaf lookup proceeds in `g` itself. -/
theorem C9_subgroup_fallback (g : LayerSet) (s : String)
    (h : ∀ sub ∈ g.subSets, sub.name ≠ s) :
    descendSubGroup g (some s) = g := by
  have hnone : g.subSets.find? (fun sub => sub.name == s) = none := by
    rw [List.find?_eq_none]
    intro x hx
    simpa using h x hx
  simp [descendSubGroup, hnone]

/-- Witness for C9: looking for subgroup `age-details` inside
`sampleGroup` (whose only child is `details`) yields `sampleGroup`
itself. -/
theorem C9_subgroup_fallback_witness :
    descendSubGroup sampleGroup (some "age-details") = sampleGroup := by
  apply C9_subgroup_fallback
  intro sub hsub
  simp only [sampleGroup, List.mem_singleton] at hsub
  subst hsub
  decide

/-- C5: for a non-blank data row that passed the earlier checks (six
columns, all required fields non-blank), validation fails with a
NotANumber error naming the row iff field 3 (Year of Death) or field 4
(Age) does not parse as an integer; the named field is Year of Death
exactly when field 3 fails, and Age exactly when field 3 parses but
field 4 fails. -/
theorem C5_notANumber_iff (fileExists : String → Bool) (row : List String)
    (rowIndex : Nat)
    (hlen : row.length = EXPECTED_COLUMNS)
    (hreq : ∀ c ∈ REQUIRED_FIELDS, jsTrim (row.getD c "") ≠ "") :
    ((∃ f, validateRow fileExists row rowIndex =
        some (.notANumber f (rowIndex + 1))) ↔
      (jsParseIntOk (row.getD 3 "") = false ∨
        jsParseIntOk (row.getD 4 "") = false)) ∧
    (validateRow fileExists row rowIndex =
        some (.notANumber "Year of Death" (rowIndex + 1)) ↔
      jsParseIntOk (row.getD 3 "") = false) ∧
    (validateRow fileExists row rowIndex =
        some (.notANumber "Age" (rowIndex + 1)) ↔
      (jsParseIntOk (row.getD 3 "") = true ∧
        jsParseIntOk (row.getD 4 "") = false)) := by
  have hblank : isBlankRow row = false := by
    simp [isBlankRow, hlen, EXPECTED_COLUMNS]
  have hfind : REQUIRED_FIELDS.find?
      (fun c => jsTrim (row.getD c "") == "") = none := by
    rw [List.find?_eq_none]
    intro c hc
    simpa using hreq c hc
  have hres : validateRow fileExists row rowIndex =
      (if jsParseIntOk (row.getD 3 "") = false then
        some (.notANumber "Year of Death" (rowIndex + 1))
      else if jsParseIntOk (row.getD 4 "") = false then
        some (.notANumber "Age" (rowIndex + 1))
      else if jsTrim (row.getD 5 "") ≠ "" ∧
          fileExists (jsTrim (row.getD 5 "")) = false then
        some (.imageNotFound (rowIndex + 1))
      else none) := by
    unfold validateRow
    rw [hblank, hlen, hfind]
    simp
  rw [hres]
  cases h3 : jsParseIntOk (row.getD 3 "") with
  | false =>
    simp [h3]
  | true =>
    cases h4 : jsParseIntOk (row.getD 4 "") with
    | false =>
      simp [h3, h4]
    | true =>
      by_cases h5 : jsTrim (row.getD 5 "") ≠ "" ∧
          fileExists (jsTrim (row.getD 5 "")) = false
      · simp [h3, h4, h5]
      · simp [h3, h4, h5]

/-- Witness for C5: a row whose Year of Death field is `abc` fails
with the NotANumber error naming row display index 2 and the field
Year of Death. -/
theorem C5_notANumber_witness :
    validateRow (fun _ => false) ["Jim", "Actor", "Heroin", "abc", "27", ""]
      1 = some (.notANumber "Year of Death" 2) := by
  have h := C5_notANumber_iff (fun _ => false)
    ["Jim", "Actor", "Heroin", "abc", "27", ""] 1 (by decide) (by decide)
  exact h.2.1.mpr (by decide)

theorem validateRow_ne_emptyCSV (fileExists : String → Bool)
    (row : List String) (idx : Nat) :
    validateRow fileExists row idx ≠ some CSVError.emptyCSV := by
  unfold validateRow
  repeat
    first
    | simp
    | split

theorem validateRows_ne_emptyCSV (fileExists : String → Bool)
    (rows : List (List String)) (idx : Nat) :
    validateRows fileExists rows idx ≠ some CSVError.emptyCSV := by
  induction rows generalizing idx with
  | nil => simp [validateRows]
  | cons row rest ih =>
    unfold validateRows
    cases hv : validateRow fileExists row idx with
    | none => exact ih (idx + 1)
    | some e =>
      have hne := validateRow_ne_emptyCSV fileExists row idx
      rw [hv] at hne
      simpa using hne

theorem headerMismatch_ne_emptyCSV (e a : List String) :
    headerMismatch e a ≠ some CSVError.emptyCSV := by
  induction e generalizing a with
  | nil => simp [headerMismatch]
  | cons x xs ih =>
    cases a with
    | nil => simp [headerMismatch]
    | cons y ys =>
      unfold headerMismatch
      split
      · simp
      · exact ih ys

/-- C10: splitting any string on newlines yields at least one line and
one row is pushed per line, so the parse step always returns at least
one row; consequently `validate` applied to the output of a successful
parse never returns the `CSV file is empty` (zero rows) error — that
branch can only fire when the reader itself failed. -/
theorem C10_parse_nonempty (content : String) (fileExists : String → Bool) :
    1 ≤ (parseCSV content).length ∧
    validateCSVData fileExists (parseCSV content) ≠
      some CSVError.emptyCSV := by
  have h1 : jsSplit '\n' content ≠ [] := jsSplit_ne_nil '\n' content
  have hlen : 1 ≤ (parseCSV content).length := by
    have hmap : (parseCSV content).length = (jsSplit '\n' content).length := by
      simp [parseCSV]
    rw [hmap]
    exact List.length_pos.mpr h1
  refine ⟨hlen, ?_⟩
  unfold validateCSVData
  rw [if_neg (by omega)]
  split
  · simp
  · show (let headers := (parseCSV content).headD []
      if headers.length ≠ EXPECTED_COLUMNS then some CSVError.headerColumnCount
      else
        match headerMismatch HEADERS headers with
        | some e => some e
        | none => validateRows fileExists ((parseCSV content).drop 1) 1) ≠
      some CSVError.emptyCSV
    simp only []
    split
    · simp
    · cases hm : headerMismatch HEADERS ((parseCSV content).headD []) with
      | some e =>
        have hne := headerMismatch_ne_emptyCSV HEADERS
          ((parseCSV content).headD [])
        rw [hm] at hne
        simpa using hne
      | none => exact validateRows_ne_emptyCSV fileExists _ 1

/-- C4: the translation of `processImage` contains no zero-extent
check: with a pasted layer of zero width the pipeline still returns a
successful placement (reaching the `frameWidth / imageWidth` ratio
with a zero divisor) instead of failing with an import error first. -/
theorem C4_zero_extent_not_guarded :
    (Bounds.mk 0 0 0 50).width = 0 ∧
    ∃ s b, processImage zeroExtentEnv "img.png" ⟨0, 0, 100, 50⟩ =
      ImgOutcome.placed s b := by
  refine ⟨by norm_num [Bounds.width], ?_⟩
  have hval : validatePath "Macintosh" "img.png" ALLOWED_IMAGE_EXTENSIONS =
      none := by decide
  refine ⟨(fitImageToFrame ⟨0, 0, 0, 50⟩ ⟨0, 0, 100, 50⟩).1,
    (fitImageToFrame ⟨0, 0, 0, 50⟩ ⟨0, 0, 100, 50⟩).2, ?_⟩
  simp only [processImage, zeroExtentEnv]
  rw [hval]
  simp

/-! ## Batch-loop lemmas -/

theorem recordWrites_mem (so : Nat → Nat → Bool) (i : Nat) (inst : String)
    (w : SlotWrite) (h : w ∈ recordWrites so i inst) :
    w.rowIndex = i ∧ w.instanceName = inst := by
  simp only [recordWrites, List.mem_map, List.mem_filter] at h
  obtain ⟨s, _, rfl⟩ := h
  exact ⟨rfl, rfl⟩

theorem stepRecord_zero (so : Nat → Nat → Bool) (i : Nat) (st : RunState)
    (h : st.processedCount = 0) :
    stepRecord so i st =
      { processedCount := st.processedCount + 1
        instances := st.instances ++ ["1.psd"]
        activeDoc := some "1.psd"
        writes := st.writes ++ recordWrites so i "1.psd" } := by
  have hnm : toString (0 + 1) ++ ".psd" = "1.psd" := rfl
  simp [stepRecord, processRecord, h, hnm]

theorem stepRecord_pos (so : Nat → Nat → Bool) (i : Nat) (st : RunState)
    (h : ¬ st.processedCount = 0) :
    stepRecord so i st =
      { st with processedCount := st.processedCount + 1
                writes := st.writes ++
                  recordWrites so i (st.activeDoc.getD "") } := by
  simp [stepRecord, processRecord, h]

theorem stepRecord_processedCount (so : Nat → Nat → Bool) (i : Nat)
    (st : RunState) :
    (stepRecord so i st).processedCount = st.processedCount + 1 := by
  by_cases h : st.processedCount = 0
  · rw [stepRecord_zero so i st h]
  · rw [stepRecord_pos so i st h]

theorem batchGo_extends (so : Nat → Nat → Bool) (rows : List (List String))
    (i : Nat) (st : RunState) :
    ∃ tw ti, (batchGo so rows i st).writes = st.writes ++ tw ∧
      (batchGo so rows i st).instances = st.instances ++ ti := by
  induction rows generalizing i st with
  | nil => exact ⟨[], [], by simp [batchGo], by simp [batchGo]⟩
  | cons row rest ih =>
    by_cases hc : st.processedCount < MAX_PROFILES
    · by_cases hb : isBlankRow row = true
      · have hr : batchGo so (row :: rest) i st =
            batchGo so rest (i + 1) st := by
          simp [batchGo, hc, hb]
        rw [hr]
        exact ih (i + 1) st
      · have hr : batchGo so (row :: rest) i st =
            batchGo so rest (i + 1) (stepRecord so i st) := by
          simp [batchGo, hc, hb]
        by_cases h0 : st.processedCount = 0
        · rw [hr, stepRecord_zero so i st h0]
          obtain ⟨tw, ti, hw, hi'⟩ := ih (i + 1) _
          refine ⟨recordWrites so i "1.psd" ++ tw, "1.psd" :: ti, ?_, ?_⟩
          · rw [hw]
            simp
          · rw [hi']
            simp
        · rw [hr, stepRecord_pos so i st h0]
          obtain ⟨tw, ti, hw, hi'⟩ := ih (i + 1) _
          refine ⟨recordWrites so i (st.activeDoc.getD "") ++ tw, ti, ?_, ?_⟩
          · rw [hw]
            simp
          · rw [hi']
    · have hr : batchGo so (row :: rest) i st = st := by
        simp [batchGo, hc]
      rw [hr]
      exact ⟨[], [], by simp, by simp⟩

theorem batchGo_master (so : Nat → Nat → Bool) (rows : List (List String)) :
    ∀ i st, st.processedCount ≤ 3 →
      (st.processedCount = 0 → st.instances = [] ∧ st.activeDoc = none) →
      (0 < st.processedCount →
        st.instances = ["1.psd"] ∧ st.activeDoc = some "1.psd") →
      (batchGo so rows i st).processedCount =
          min (st.processedCount +
            rows.countP (fun r => !(isBlankRow r))) 3 ∧
      (0 < (batchGo so rows i st).processedCount →
        (batchGo so rows i st).instances = ["1.psd"] ∧
        (batchGo so rows i st).activeDoc = some "1.psd") ∧
      (∀ w ∈ (batchGo so rows i st).writes, w ∈ st.writes ∨
        (w.instanceName = "1.psd" ∧
          w.rowIndex ∈
            (nonBlankIndices rows i).take (3 - st.processedCount))) := by
  induction rows with
  | nil =>
    intro i st h3 hz hp
    simp only [batchGo, List.countP_nil]
    exact ⟨by omega, hp, fun w hw => Or.inl hw⟩
  | cons row rest ih =>
    intro i st h3 hz hp
    have hmax : MAX_PROFILES = 3 := rfl
    by_cases hc : st.processedCount < MAX_PROFILES
    · by_cases hb : isBlankRow row = true
      · have hr : batchGo so (row :: rest) i st =
            batchGo so rest (i + 1) st := by
          simp [batchGo, hc, hb]
        have hcnt : (row :: rest).countP (fun r => !(isBlankRow r)) =
            rest.countP (fun r => !(isBlankRow r)) := by
          simp [List.countP_cons, hb]
        have hnb : nonBlankIndices (row :: rest) i =
            nonBlankIndices rest (i + 1) := by
          simp [nonBlankIndices, hb]
        rw [hr, hcnt, hnb]
        exact ih (i + 1) st h3 hz hp
      · have hr : batchGo so (row :: rest) i st =
            batchGo so rest (i + 1) (stepRecord so i st) := by
          simp [batchGo, hc, hb]
        have hcnt : (row :: rest).countP (fun r => !(isBlankRow r)) =
            rest.countP (fun r => !(isBlankRow r)) + 1 := by
          simp [List.countP_cons, hb]
        have hnb : nonBlankIndices (row :: rest) i =
            i :: nonBlankIndices rest (i + 1) := by
          simp [nonBlankIndices, hb]
        have hcount' : (stepRecord so i st).processedCount =
            st.processedCount + 1 := stepRecord_processedCount so i st
        have hinst' : (stepRecord so i st).instances = ["1.psd"] ∧
            (stepRecord so i st).activeDoc = some "1.psd" := by
          by_cases h0 : st.processedCount = 0
          · rw [stepRecord_zero so i st h0]
            have := hz h0
            simp [this.1]
          · rw [stepRecord_pos so i st h0]
            have := hp (by omega)
            simp [this.1, this.2]
        have hwr : (stepRecord so i st).writes =
            st.writes ++ recordWrites so i "1.psd" := by
          by_cases h0 : st.processedCount = 0
          · rw [stepRecord_zero so i st h0]
          · rw [stepRecord_pos so i st h0]
            have := hp (by omega)
            simp [this.2]
        obtain ⟨ihc, ihp, ihw⟩ := ih (i + 1) (stepRecord so i st)
          (by omega) (by omega) (fun _ => hinst')
        rw [hr, hcnt, hnb]
        refine ⟨by rw [ihc, hcount']; omega, ihp, ?_⟩
        intro w hw
        rcases ihw w hw with hin | ⟨hiw, hmem⟩
        · rw [hwr] at hin
          rcases List.mem_append.mp hin with hin1 | hin2
          · exact Or.inl hin1
          · obtain ⟨hri, hni⟩ := recordWrites_mem so i "1.psd" w hin2
            refine Or.inr ⟨hni, ?_⟩
            have ht : 3 - st.processedCount = (3 - (st.processedCount + 1)) + 1 := by
              omega
            rw [ht, List.take_succ_cons, hri]
            exact List.mem_cons_self _ _
        · refine Or.inr ⟨hiw, ?_⟩
          have ht : 3 - st.processedCount = (3 - (st.processedCount + 1)) + 1 := by
            omega
          rw [ht, List.take_succ_cons, hcount'] at *
          rw [hcount'] at hmem
          exact List.mem_cons_of_mem _ hmem
    · have hr : batchGo so (row :: rest) i st = st := by
        simp [batchGo, hc]
      rw [hr]
      exact ⟨by omega, hp, fun w hw => Or.inl hw⟩

theorem parseCSV_length_ne_zero (content : String) :
    ¬ (parseCSV content).length = 0 := by
  intro h
  rw [List.length_eq_zero] at h
  have hne := jsSplit_ne_nil '\n' content
  simp only [parseCSV, List.map_eq_nil_iff] at h
  exact hne h

/-- C6: a validation error stops the run before any document
mutation — the run state still has no template instance and no slot
write; and the batch loop only ever appends to the write and instance
traces, so a failure in a later record or slot never removes writes
already made. -/
theorem C6_validation_stops_mutation (fileExists : String → Bool)
    (so : Nat → Nat → Bool) (content : String) (e : CSVError)
    (hv : validateCSVData fileExists (parseCSV content) = some e) :
    ((runMain fileExists so (some content)).2.writes = [] ∧
      (runMain fileExists so (some content)).2.instances = []) ∧
    ∀ rows i st, ∃ tw ti,
      (batchGo so rows i st).writes = st.writes ++ tw ∧
      (batchGo so rows i st).instances = st.instances ++ ti := by
  constructor
  · have hrm : runMain fileExists so (some content) =
        (.validationFailed e, initialRunState) := by
      simp only [runMain]
      rw [if_neg (parseCSV_length_ne_zero content), hv]
    rw [hrm]
    exact ⟨rfl, rfl⟩
  · exact fun rows i st => batchGo_extends so rows i st

/-- Witness for C6: a one-line input fails validation (missing data
rows) and the run performs no writes. -/
theorem C6_validation_stops_mutation_witness :
    validateCSVData (fun _ => true) (parseCSV "bad") =
      some CSVError.missingDataRows ∧
    (runMain (fun _ => true) (fun _ _ => true) (some "bad")).2.writes =
      [] := by
  have hv : validateCSVData (fun _ => true) (parseCSV "bad") =
      some CSVError.missingDataRows := by decide
  exact ⟨hv, (C6_validation_stops_mutation (fun _ => true) (fun _ _ => true)
    "bad" CSVError.missingDataRows hv).1.1⟩

/-- C3: on an input accepted by validation with at least three
non-blank data rows, the loop processes exactly three records and
reports a processed count of 3, creates exactly one template instance
(named `1.psd`, by sequence number, on the first processed record),
and every slot write of the whole run targets that one instance and
comes from one of the first three non-blank data rows — the fourth and
later data rows are ignored. -/
theorem C3_single_instance_three_records (fileExists : String → Bool)
    (so : Nat → Nat → Bool) (content : String)
    (hv : validateCSVData fileExists (parseCSV content) = none)
    (h3 : 3 ≤ ((parseCSV content).drop 1).countP
      (fun r => !(isBlankRow r))) :
    (runMain fileExists so (some content)).1 = .completed 3 ∧
    (runMain fileExists so (some content)).2.processedCount = 3 ∧
    (runMain fileExists so (some content)).2.instances = ["1.psd"] ∧
    ∀ w ∈ (runMain fileExists so (some content)).2.writes,
      w.instanceName = "1.psd" ∧
      w.rowIndex ∈
        (nonBlankIndices ((parseCSV content).drop 1) 1).take 3 := by
  have hrm : runMain fileExists so (some content) =
      (.completed (batchGo so ((parseCSV content).drop 1) 1
          initialRunState).processedCount,
        batchGo so ((parseCSV content).drop 1) 1 initialRunState) := by
    simp only [runMain]
    rw [if_neg (parseCSV_length_ne_zero content), hv]
  obtain ⟨hcnt, hpos, hw⟩ := batchGo_master so ((parseCSV content).drop 1) 1
    initialRunState (by simp [initialRunState])
    (fun _ => ⟨rfl, rfl⟩)
    (fun h => absurd h (by simp [initialRunState]))
  have hc3 : (batchGo so ((parseCSV content).drop 1) 1
      initialRunState).processedCount = 3 := by
    rw [hcnt]
    simp only [initialRunState]
    omega
  refine ⟨?_, ?_, ?_, ?_⟩
  · rw [hrm, hc3]
  · rw [hrm]
    exact hc3
  · rw [hrm]
    exact (hpos (by omega)).1
  · rw [hrm]
    intro w hwm
    rcases hw w hwm with hin | ⟨hi, hr⟩
    · simp [initialRunState] at hin
    · refine ⟨hi, ?_⟩
      simpa [initialRunState] using hr

/-- Witness for C3: the four-data-row input `csv4` passes validation,
reports a processed count of 3 and creates the single instance
`1.psd`. -/
theorem C3_single_instance_three_records_witness :
    (runMain (fun _ => true) (fun _ _ => true) (some csv4)).1 =
      .completed 3 ∧
    (runMain (fun _ => true) (fun _ _ => true) (some csv4)).2.instances =
      ["1.psd"] := by
  have h := C3_single_instance_three_records (fun _ => true)
    (fun _ _ => true) csv4 (by decide) (by decide)
  exact ⟨h.1, h.2.2.1⟩

end PSImporter
